import Mathlib

/-!
Verification of the core of the rag-platform ingestion service.

The development shallowly embeds the ingestion pipeline
(`validate_and_collect_files`, `extract_text`, `documents_ingestion`,
`store_document`) and the retrieval pipeline (`load_embeddings`,
`rerank`, `handle_query`) as executable Lean functions.  External
collaborators (the filesystem, pypdf/docx readers, the embedding model,
the cross-encoder, the LLM, wall-clock time and uuid generation) are
passed in as explicit environments, mirroring the points where the
Python code calls out of the core.
-/

/- ## Python string primitives over character lists -/

/-- Model of Python `str.lower()`: lowercases every character. -/
def pyLower (s : String) : String := ⟨s.data.map Char.toLower⟩

/-- Model of Python `s.endswith(t)` for a single suffix `t`. -/
def pyEndsWith (s t : String) : Bool := t.data.isSuffixOf s.data

/-- Model of Python `s.startswith(t)`. -/
def pyStartsWith (s t : String) : Bool := t.data.isPrefixOf s.data

/-- Model of Python `str.strip()`: removes leading and trailing whitespace. -/
def pyStrip (s : String) : String :=
  ⟨((s.data.dropWhile Char.isWhitespace).reverse.dropWhile Char.isWhitespace).reverse⟩

/-- Model of Python `os.path.basename` for slash-separated paths. -/
def basename (p : String) : String :=
  ⟨p.data.foldl (fun acc c => if c = '/' then [] else acc ++ [c]) []⟩

/-- Auxiliary recursion (on a fuel bound) removing every occurrence of the
pattern `pat` from a character list, as Python `s.replace(pat, "")` does. -/
def removeAllAux (pat : List Char) : Nat → List Char → List Char
  | 0, l => l
  | _ + 1, [] => []
  | fuel + 1, c :: rest =>
    if pat.isPrefixOf (c :: rest) then removeAllAux pat fuel (rest.drop (pat.length - 1))
    else c :: removeAllAux pat fuel rest

/-- Model of Python `s.replace(pat, "")` for a non-empty pattern. -/
def pyReplaceEmpty (s pat : String) : String :=
  if pat.data.isEmpty then s else ⟨removeAllAux pat.data s.data.length s.data⟩

/- ## File Collector (`src/backend/src/service_support/validate_and_collect_files.py`) -/

/-- The `SUPPORTED_EXTENSIONS` tuple of `validate_and_collect_files.py`. -/
def SUPPORTED_EXTENSIONS : List String := [".pdf", ".txt", ".docx"]

/-- Python `name.lower().endswith(SUPPORTED_EXTENSIONS)` — `endswith` on a
tuple succeeds when any member matches. -/
def hasSupportedExtension (name : String) : Bool :=
  SUPPORTED_EXTENSIONS.any (fun ext => pyEndsWith (pyLower name) ext)

/-- Abstract filesystem seen by the collector: existence and kind of a path,
and the `os.walk` enumeration of a directory as (root, file-name) pairs in
traversal order. -/
structure FileSystem where
  pathExists : String → Bool
  isFile : String → Bool
  isDir : String → Bool
  walk : String → List (String × String)

/-- Model of `os.path.join` for the collector's directory branch. -/
def os_path_join (root name : String) : String := root ++ "/" ++ name

/-- Embedding of `validate_and_collect_files`: validates the path, returns a
singleton for a supported file, recursively collects matching files of a
directory, and fails otherwise.  Error strings stand for the raised
exceptions (`ValidationError`, `PathNotFoundError`). -/
def validate_and_collect_files (fs : FileSystem) (path : String) :
    Except String (List String) :=
  if path = "" then .error "Invalid or missing path"
  else if fs.pathExists path = false then .error ("Path does not exist: " ++ path)
  else if fs.isFile path then
    if hasSupportedExtension path then .ok [path]
    else .error ("Unsupported file type: " ++ path)
  else if fs.isDir path then
    .ok (((fs.walk path).filter (fun e => hasSupportedExtension e.2)).map
      (fun e => os_path_join e.1 e.2))
  else .error "Invalid path type"

/- ## Text Extractor (`src/backend/src/service_support/extract_text.py`) -/

/-- External readers used by `extract_text`: raw UTF-8 file read, pypdf
per-page extracted text (already with `or ""` applied), and docx paragraph
texts.  Each may raise, modelled by `Except`. -/
structure ExtractEnv where
  readTxtFile : String → Except String String
  pdfPages : String → Except String (List String)
  docxParagraphs : String → Except String (List String)

/-- Embedding of `extract_text`: dispatches on the lowercased path suffix to
the `.txt`, `.pdf` or `.docx` handler, and fails on other extensions. -/
def extract_text (env : ExtractEnv) (file_path : String) : Except String String :=
  if file_path = "" then .error "Invalid file path"
  else if pyEndsWith (pyLower file_path) ".txt" then
    env.readTxtFile file_path
  else if pyEndsWith (pyLower file_path) ".pdf" then
    (env.pdfPages file_path).map (fun pages => pages.foldl (fun acc t => acc ++ t) "")
  else if pyEndsWith (pyLower file_path) ".docx" then
    (env.docxParagraphs file_path).map (fun paras => String.intercalate "\n" paras)
  else .error ("Unsupported file type: " ++ file_path)

/- ## Suffix disambiguation lemmas -/

/-- Two suffixes of the same character list, neither a suffix of the other,
cannot coexist. -/
theorem suffix_incompat {l t₁ t₂ : List Char} (h₁ : t₁ <:+ l) (h₂ : t₂ <:+ l)
    (h₃ : ¬ t₁ <:+ t₂) (h₄ : ¬ t₂ <:+ t₁) : False := by
  rcases List.suffix_or_suffix_of_suffix h₁ h₂ with h | h
  · exact h₃ h
  · exact h₄ h

theorem not_txt_of_pdf {s : String} (h : pyEndsWith s ".pdf" = true) :
    pyEndsWith s ".txt" = false := by
  by_contra hc
  have h2 : pyEndsWith s ".txt" = true := by
    cases h' : pyEndsWith s ".txt" with
    | false => exact absurd h' hc
    | true => rfl
  have hs1 : (".pdf".data) <:+ s.data := by
    simpa [pyEndsWith, List.isSuffixOf_iff_suffix] using h
  have hs2 : (".txt".data) <:+ s.data := by
    simpa [pyEndsWith, List.isSuffixOf_iff_suffix] using h2
  exact suffix_incompat hs1 hs2 (by decide) (by decide)

theorem not_txt_of_docx {s : String} (h : pyEndsWith s ".docx" = true) :
    pyEndsWith s ".txt" = false := by
  by_contra hc
  have h2 : pyEndsWith s ".txt" = true := by
    cases h' : pyEndsWith s ".txt" with
    | false => exact absurd h' hc
    | true => rfl
  have hs1 : (".docx".data) <:+ s.data := by
    simpa [pyEndsWith, List.isSuffixOf_iff_suffix] using h
  have hs2 : (".txt".data) <:+ s.data := by
    simpa [pyEndsWith, List.isSuffixOf_iff_suffix] using h2
  exact suffix_incompat hs1 hs2 (by decide) (by decide)

theorem not_pdf_of_docx {s : String} (h : pyEndsWith s ".docx" = true) :
    pyEndsWith s ".pdf" = false := by
  by_contra hc
  have h2 : pyEndsWith s ".pdf" = true := by
    cases h' : pyEndsWith s ".pdf" with
    | false => exact absurd h' hc
    | true => rfl
  have hs1 : (".docx".data) <:+ s.data := by
    simpa [pyEndsWith, List.isSuffixOf_iff_suffix] using h
  have hs2 : (".pdf".data) <:+ s.data := by
    simpa [pyEndsWith, List.isSuffixOf_iff_suffix] using h2
  exact suffix_incompat hs1 hs2 (by decide) (by decide)

/-- C10: Extension matching is case-insensitive at both ingestion stages: a
path whose lowercased form ends with ".pdf", ".txt" or ".docx" is accepted by
the file collector (file branch), and `extract_text` dispatches it to the
handler of the matching format, because both compare against the lowercased
path. -/
theorem extension_matching_case_insensitive
    (fs : FileSystem) (env : ExtractEnv) (path : String)
    (hne : path ≠ "") (hex : fs.pathExists path = true) (hf : fs.isFile path = true)
    (h : pyEndsWith (pyLower path) ".pdf" = true ∨ pyEndsWith (pyLower path) ".txt" = true ∨
         pyEndsWith (pyLower path) ".docx" = true) :
    validate_and_collect_files fs path = .ok [path] ∧
    (pyEndsWith (pyLower path) ".txt" = true →
      extract_text env path = env.readTxtFile path) ∧
    (pyEndsWith (pyLower path) ".pdf" = true →
      extract_text env path
        = (env.pdfPages path).map (fun pages => pages.foldl (fun acc t => acc ++ t) "")) ∧
    (pyEndsWith (pyLower path) ".docx" = true →
      extract_text env path
        = (env.docxParagraphs path).map (fun paras => String.intercalate "\n" paras)) := by
  have hsupp : hasSupportedExtension path = true := by
    rcases h with h | h | h <;>
      simp [hasSupportedExtension, SUPPORTED_EXTENSIONS, h]
  refine ⟨?_, ?_, ?_, ?_⟩
  · simp [validate_and_collect_files, hne, hex, hf, hsupp]
  · intro ht
    simp [extract_text, hne, ht]
  · intro hp
    simp [extract_text, hne, hp, not_txt_of_pdf hp]
  · intro hd
    simp [extract_text, hne, hd, not_txt_of_docx hd, not_pdf_of_docx hd]

/-- Concrete filesystem for the C10 witness: every path exists and is a file. -/
def witnessFS : FileSystem :=
  { pathExists := fun _ => true
    isFile := fun _ => true
    isDir := fun _ => false
    walk := fun _ => [] }

/-- Concrete extraction environment for the C10 witness. -/
def witnessExtractEnv : ExtractEnv :=
  { readTxtFile := fun _ => .ok "txt content"
    pdfPages := fun _ => .ok ["page one ", "page two"]
    docxParagraphs := fun _ => .ok ["para one", "para two"] }

theorem extension_matching_case_insensitive_witness :
    validate_and_collect_files witnessFS "REPORT.PDF" = .ok ["REPORT.PDF"] ∧
    extract_text witnessExtractEnv "REPORT.PDF" = .ok "page one page two" := by
  have h := extension_matching_case_insensitive witnessFS witnessExtractEnv "REPORT.PDF"
    (by decide) rfl rfl (Or.inl (by decide))
  refine ⟨h.1, ?_⟩
  rw [h.2.2.1 (by decide)]
  rfl

/- ## Ingestion Job Controller (`src/backend/src/services/ingestion_services.py`) -/

/-- Per-file stages of `documents_ingestion`, each an external call that may
raise: text extraction, chunking, embedding generation, and document
storage.  The error string is `str(exception)`. -/
structure IngestEnv where
  extract_text : String → Except String String
  chunk_text : String → Except String (List String)
  generate_embeddings : List String → Except String (List (List ℚ))
  store_document : String → List String → List (List ℚ) → Except String Unit

/-- Outcome of the loop body of `documents_ingestion` for one file: either
the file was stored, or a failure entry string was appended. -/
inductive FileOutcome where
  | stored
  | failed (entry : String)
deriving DecidableEq

/-- Embedding of the per-file loop body of `documents_ingestion`: extract,
reject whitespace-only text as "Empty file", chunk, reject an empty chunk
list as "Chunking failed", embed, store; any stage exception is caught and
recorded as `"<path> - <error message>"`. -/
def processFile (env : IngestEnv) (file_path : String) : FileOutcome :=
  match env.extract_text file_path with
  | .error e => .failed (file_path ++ " - " ++ e)
  | .ok raw_text =>
    if pyStrip raw_text = "" then .failed (file_path ++ " - Empty file")
    else
      match env.chunk_text raw_text with
      | .error e => .failed (file_path ++ " - " ++ e)
      | .ok chunks =>
        if chunks.isEmpty then .failed (file_path ++ " - Chunking failed")
        else
          match env.generate_embeddings chunks with
          | .error e => .failed (file_path ++ " - " ++ e)
          | .ok embeddings =>
            match env.store_document file_path chunks embeddings with
            | .error e => .failed (file_path ++ " - " ++ e)
            | .ok _ => .stored

/-- One iteration of the loop, threading the `results` and `failed_files`
accumulators. -/
def ingestStep (env : IngestEnv) (acc : List String × List String)
    (file_path : String) : List String × List String :=
  match processFile env file_path with
  | .stored => (acc.1 ++ [file_path], acc.2)
  | .failed entry => (acc.1, acc.2 ++ [entry])

/-- The whole per-file loop of `documents_ingestion`, producing the final
`results` and `failed_files` lists. -/
def ingestLoop (env : IngestEnv) (files : List String) : List String × List String :=
  files.foldl (ingestStep env) ([], [])

/-- Decides whether `documents_ingestion` stores a given file. -/
def isStored (env : IngestEnv) (p : String) : Bool :=
  processFile env p = FileOutcome.stored

/-- The failure entry recorded for a file (meaningful when `isStored` is
false). -/
def entryOf (env : IngestEnv) (p : String) : String :=
  match processFile env p with
  | .stored => ""
  | .failed entry => entry

/-- The `IngestionJob` ORM row: id, status, free-text result. -/
structure IngestionJob where
  id : String
  status : String
  result : Option String
deriving DecidableEq

/-- The final result summary f-string of `documents_ingestion`, with the
rounded elapsed-seconds rendering passed in as `elapsed`. -/
def summaryString (nOk nFailed : Nat) (elapsed : String) : String :=
  "Processed: " ++ toString nOk ++ ", Failed: " ++ toString nFailed ++
    ", Time: " ++ elapsed ++ "s"

/-- Embedding of `documents_ingestion`.  The job row is read from the
database (`none` when missing, in which case the task exits silently);
`collect` is the outcome of `validate_and_collect_files` (its exception is
caught by the outer handler, which marks the job FAILED with `str(e)`);
database commits are modelled as infallible. -/
def documents_ingestion (env : IngestEnv) (job? : Option IngestionJob)
    (collect : Except String (List String)) (elapsed : String) :
    Option IngestionJob :=
  match job? with
  | none => none
  | some job =>
    let job := { job with status := "PROCESSING" }
    match collect with
    | .error e => some { job with status := "FAILED", result := some e }
    | .ok files =>
      if files.isEmpty then
        some { job with status := "FAILED", result := some "No supported files found" }
      else
        let st := ingestLoop env files
        some { job with status := "COMPLETED",
                        result := some (summaryString st.1.length st.2.length elapsed) }

/-- Characterization of the loop accumulators: the stored files in input
order, and one failure entry per non-stored file in input order. -/
theorem ingestLoop_foldl_spec (env : IngestEnv) (files : List String)
    (rs fs : List String) :
    files.foldl (ingestStep env) (rs, fs)
      = (rs ++ files.filter (isStored env),
         fs ++ (files.filter (fun p => !(isStored env p))).map (entryOf env)) := by
  induction files generalizing rs fs with
  | nil => simp
  | cons p t ih =>
    rw [List.foldl_cons]
    cases h : processFile env p with
    | stored =>
      rw [show ingestStep env (rs, fs) p = (rs ++ [p], fs) by simp [ingestStep, h]]
      rw [ih]
      have hst : isStored env p = true := by simp [isStored, h]
      simp [hst]
    | failed entry =>
      rw [show ingestStep env (rs, fs) p = (rs, fs ++ [entry]) by simp [ingestStep, h]]
      rw [ih]
      have hst : isStored env p = false := by simp [isStored, h]
      have hent : entryOf env p = entry := by simp [entryOf, h]
      simp [hst, hent]

theorem ingestLoop_spec (env : IngestEnv) (files : List String) :
    ingestLoop env files
      = (files.filter (isStored env),
         (files.filter (fun p => !(isStored env p))).map (entryOf env)) := by
  rw [ingestLoop, ingestLoop_foldl_spec]
  simp

/-- Core computation of the final job update, shared by the C1 and C2
theorems. -/
theorem documents_ingestion_completed_spec
    (env : IngestEnv) (job : IngestionJob) (files : List String) (elapsed : String)
    (hne : files ≠ []) :
    documents_ingestion env (some job) (.ok files) elapsed
      = some { job with status := "COMPLETED",
                        result := some (summaryString
                          (files.filter (isStored env)).length
                          (files.filter (fun p => !(isStored env p))).length elapsed) } := by
  have h : files.isEmpty = false := by
    cases files with
    | nil => exact absurd rfl hne
    | cons a t => rfl
  simp only [documents_ingestion, h, Bool.false_eq_true, if_false, ingestLoop_spec]
  simp

/-- C1: When the job record exists and file collection returns at least one
file, the job finishes COMPLETED — whatever the per-file outcomes, including
all files failing — and its result is exactly the string
"Processed: {n_ok}, Failed: {n_failed}, Time: {seconds}s" where n_ok counts
the files successfully stored and n_failed the files recorded as failed. -/
theorem documents_ingestion_completed
    (env : IngestEnv) (job : IngestionJob) (files : List String) (elapsed : String)
    (hne : files ≠ []) :
    documents_ingestion env (some job) (.ok files) elapsed
      = some { job with status := "COMPLETED",
                        result := some (summaryString
                          (files.filter (isStored env)).length
                          (files.filter (fun p => !(isStored env p))).length elapsed) } :=
  documents_ingestion_completed_spec env job files elapsed hne

/-- Ingestion environment for witnesses: "a.txt" extracts fine and stores,
"bad.pdf" raises "boom" during extraction, "empty.txt" extracts whitespace
only. -/
def witnessIngestEnv : IngestEnv :=
  { extract_text := fun p =>
      if p = "a.txt" then .ok "hello world"
      else if p = "empty.txt" then .ok "  \n "
      else .error "boom"
    chunk_text := fun t => .ok [t]
    generate_embeddings := fun cs => .ok (cs.map (fun _ => [1, 0]))
    store_document := fun _ _ _ => .ok () }

/-- Witness job row for C1. -/
def witnessJob : IngestionJob := ⟨"job-1", "PENDING", none⟩

theorem documents_ingestion_completed_witness :
    documents_ingestion witnessIngestEnv (some witnessJob)
        (.ok ["a.txt", "bad.pdf"]) "0.42"
      = some ⟨"job-1", "COMPLETED", some "Processed: 1, Failed: 1, Time: 0.42s"⟩ :=
  (documents_ingestion_completed witnessIngestEnv witnessJob ["a.txt", "bad.pdf"]
    "0.42" (by decide)).trans (by decide)

/-- Membership of a failure entry: a file of the job whose processing fails
contributes its entry to `failed_files`. -/
theorem failed_entry_mem (env : IngestEnv) (files : List String) (p : String)
    (entry : String) (hp : p ∈ files) (h : processFile env p = .failed entry) :
    entry ∈ (ingestLoop env files).2 := by
  rw [ingestLoop_spec]
  have hst : isStored env p = false := by simp [isStored, h]
  have hent : entryOf env p = entry := by simp [entryOf, h]
  exact hent ▸ List.mem_map_of_mem (entryOf env) (by simp [List.mem_filter, hp, hst])

/-- Membership of a stored file: a file of the job whose processing succeeds
ends up in `results`. -/
theorem stored_mem (env : IngestEnv) (files : List String) (q : String)
    (hq : q ∈ files) (h : isStored env q = true) :
    q ∈ (ingestLoop env files).1 := by
  rw [ingestLoop_spec]
  simp [List.mem_filter, hq, h]

/-- C2: Per-file fault isolation in `documents_ingestion`.  For a file of the
job: an extraction exception is recorded as "<path> - <error>"; extracted
text that strips to empty is recorded as "<path> - Empty file"; chunking,
embedding and storage exceptions are recorded as "<path> - <error>"; and no
failure prevents any other file from being processed — every file whose
processing succeeds is in `results`, and the job still completes. -/
theorem per_file_failure_isolated
    (env : IngestEnv) (files : List String) (p : String) (hp : p ∈ files) :
    (∀ e, env.extract_text p = .error e →
       (p ++ " - " ++ e) ∈ (ingestLoop env files).2) ∧
    (∀ raw, env.extract_text p = .ok raw → pyStrip raw = "" →
       (p ++ " - Empty file") ∈ (ingestLoop env files).2) ∧
    (∀ raw e, env.extract_text p = .ok raw → pyStrip raw ≠ "" →
       env.chunk_text raw = .error e →
       (p ++ " - " ++ e) ∈ (ingestLoop env files).2) ∧
    (∀ raw chunks e, env.extract_text p = .ok raw → pyStrip raw ≠ "" →
       env.chunk_text raw = .ok chunks → chunks ≠ [] →
       env.generate_embeddings chunks = .error e →
       (p ++ " - " ++ e) ∈ (ingestLoop env files).2) ∧
    (∀ raw chunks embeddings e, env.extract_text p = .ok raw → pyStrip raw ≠ "" →
       env.chunk_text raw = .ok chunks → chunks ≠ [] →
       env.generate_embeddings chunks = .ok embeddings →
       env.store_document p chunks embeddings = .error e →
       (p ++ " - " ++ e) ∈ (ingestLoop env files).2) ∧
    (∀ q ∈ files, isStored env q = true → q ∈ (ingestLoop env files).1) ∧
    (∀ job elapsed,
       (documents_ingestion env (some job) (.ok files) elapsed).map (fun j => j.status)
         = some "COMPLETED") := by
  refine ⟨?_, ?_, ?_, ?_, ?_, ?_, ?_⟩
  · intro e he
    exact failed_entry_mem env files p _ hp (by simp [processFile, he])
  · intro raw hraw hstrip
    exact failed_entry_mem env files p _ hp (by simp [processFile, hraw, hstrip])
  · intro raw e hraw hstrip hchunk
    exact failed_entry_mem env files p _ hp (by simp [processFile, hraw, hstrip, hchunk])
  · intro raw chunks e hraw hstrip hchunk hcne hemb
    have hcne2 : chunks.isEmpty = false := by
      cases chunks with
      | nil => exact absurd rfl hcne
      | cons a t => rfl
    exact failed_entry_mem env files p _ hp
      (by simp [processFile, hraw, hstrip, hchunk, hcne2, hemb])
  · intro raw chunks embeddings e hraw hstrip hchunk hcne hemb hstore
    have hcne2 : chunks.isEmpty = false := by
      cases chunks with
      | nil => exact absurd rfl hcne
      | cons a t => rfl
    exact failed_entry_mem env files p _ hp
      (by simp [processFile, hraw, hstrip, hchunk, hcne2, hemb, hstore])
  · intro q hq hst
    exact stored_mem env files q hq hst
  · intro job elapsed
    have hne : files ≠ [] := by
      intro hcon
      rw [hcon] at hp
      exact absurd hp (List.not_mem_nil p)
    rw [documents_ingestion_completed_spec env job files elapsed hne]
    rfl

theorem per_file_failure_isolated_witness :
    ("bad.pdf - boom") ∈ (ingestLoop witnessIngestEnv ["a.txt", "bad.pdf", "empty.txt"]).2 ∧
    ("empty.txt - Empty file") ∈ (ingestLoop witnessIngestEnv ["a.txt", "bad.pdf", "empty.txt"]).2 ∧
    ("a.txt") ∈ (ingestLoop witnessIngestEnv ["a.txt", "bad.pdf", "empty.txt"]).1 := by
  have h := per_file_failure_isolated witnessIngestEnv ["a.txt", "bad.pdf", "empty.txt"]
    "bad.pdf" (by decide)
  have h2 := per_file_failure_isolated witnessIngestEnv ["a.txt", "bad.pdf", "empty.txt"]
    "empty.txt" (by decide)
  exact ⟨h.1 "boom" rfl,
         h2.2.1 "  \n " rfl (by decide),
         h.2.2.2.2.2.1 "a.txt" (by decide) (by decide)⟩

/- ## Document Store (`src/backend/src/service_support/storage_service.py`,
`src/backend/src/orms/duck_db_orm.py`) -/

/-- The parquet storage directory constant of `storage_service.py`. -/
def PARQUET_DIR : String := "data/parquet"

/-- The `Document` ORM row as written by `store_document` (fields it sets). -/
structure DocumentRow where
  document_id : String
  file_name : String
  status : String
deriving DecidableEq

/-- The `Chunk` ORM row of `duck_db_orm.py`: identity, owning document,
ordinal index, the nullable shard-pointer columns `parquet_path` and
`row_number`, none of which `store_document` sets. -/
structure ChunkRow where
  chunk_id : String
  document_id : String
  chunk_index : Nat
  parquet_path : Option String
  row_number : Option Nat
deriving DecidableEq

/-- One row of the columnar parquet shard written per document. -/
structure ShardRow where
  chunk_id : String
  document_id : String
  chunk_index : Nat
  text : String
  embedding : List ℚ
deriving DecidableEq

/-- The persistent state touched by `store_document`: the committed
`documents` and `chunks` relational tables, and the parquet shard files
keyed by their path. -/
structure StoreState where
  documents : List DocumentRow
  chunksTable : List ChunkRow
  shards : List (String × List ShardRow)
deriving DecidableEq

/-- The dict returned by a successful `store_document`. -/
structure StoreResult where
  document_id : String
  file_name : String
  chunk_count : Nat
  status : String
deriving DecidableEq

/-- Embedding of `store_document`.  `document_id` and `chunkIds` stand for
the freshly generated uuid4 values, and `shardWriteFails` for whether
`df.to_parquet` raises.  The function validates its inputs, inserts and
commits the Document row with status "completed", builds the shard rows and
chunk records, writes the shard, then inserts and commits the chunk rows;
when the shard write raises, the session is rolled back — which cannot undo
the already committed Document insert — and the error propagates. -/
def store_document (document_id : String) (chunkIds : Nat → String)
    (shardWriteFails : Bool) (file_path : String) (chunks : List String)
    (embeddings : List (List ℚ)) (st : StoreState) :
    Except String StoreResult × StoreState :=
  if file_path = "" then (.error "Invalid file path", st)
  else if chunks.isEmpty then (.error "Invalid chunks", st)
  else if embeddings.isEmpty then (.error "Invalid embeddings", st)
  else if chunks.length ≠ embeddings.length then
    (.error "Chunks and embeddings count mismatch", st)
  else
    let file_name := basename file_path
    let document : DocumentRow := ⟨document_id, file_name, "completed"⟩
    let st1 := { st with documents := st.documents ++ [document] }
    let indexed := (chunks.zip embeddings).enum
    let data : List ShardRow :=
      indexed.map (fun ie => ⟨chunkIds ie.1, document_id, ie.1, ie.2.1, ie.2.2⟩)
    let chunk_records : List ChunkRow :=
      indexed.map (fun ie => ⟨chunkIds ie.1, document_id, ie.1, none, none⟩)
    let parquet_path := PARQUET_DIR ++ "/" ++ document_id ++ ".parquet"
    if shardWriteFails then
      (.error "Error storing document", st1)
    else
      (.ok ⟨document_id, file_name, chunks.length, "completed"⟩,
       { st1 with shards := st1.shards ++ [(parquet_path, data)],
                  chunksTable := st1.chunksTable ++ chunk_records })

/-- C7: The Document row is committed before the shard file is written; when
the shard write raises, `store_document` fails, yet the final state carries
the new Document row with status "completed" while the shard files (and the
chunks table) are exactly those of the initial state — the Document insert
is not rolled back and no shard corresponds to it. -/
theorem store_document_no_rollback_on_shard_failure
    (document_id : String) (chunkIds : Nat → String) (file_path : String)
    (chunks : List String) (embeddings : List (List ℚ)) (st : StoreState)
    (h1 : file_path ≠ "") (h2 : chunks ≠ []) (h3 : embeddings ≠ [])
    (h4 : chunks.length = embeddings.length) :
    store_document document_id chunkIds true file_path chunks embeddings st
      = (.error "Error storing document",
         { st with documents :=
             st.documents ++ [⟨document_id, basename file_path, "completed"⟩] }) := by
  have h2' : chunks.isEmpty = false := by
    cases chunks with
    | nil => exact absurd rfl h2
    | cons a t => rfl
  have h3' : embeddings.isEmpty = false := by
    cases embeddings with
    | nil => exact absurd rfl h3
    | cons a t => rfl
  simp [store_document, h1, h2', h3', h4]

theorem store_document_no_rollback_on_shard_failure_witness :
    store_document "d1" (fun i => "ck" ++ toString i) true "docs/a.txt"
        ["hello"] [[1, 0]] ⟨[], [], []⟩
      = (.error "Error storing document", ⟨[⟨"d1", "a.txt", "completed"⟩], [], []⟩) :=
  (store_document_no_rollback_on_shard_failure "d1" (fun i => "ck" ++ toString i)
    "docs/a.txt" ["hello"] [[1, 0]] ⟨[], [], []⟩
    (by decide) (by decide) (by decide) (by decide)).trans (by rfl)

/-- C8 counterexample: a concrete successful `store_document` run creates a
Chunk metadata row whose shard-pointer columns `parquet_path` and
`row_number` are both unset (`none`) — the row does not record a pointer to
the columnar shard, refuting the claim as stated. -/
theorem chunk_row_shard_pointer_counterexample :
    (store_document "d1" (fun i => "ck" ++ toString i) false "docs/a.txt"
        ["hello"] [[1, 0]] ⟨[], [], []⟩).2.chunksTable
      = [⟨"ck0", "d1", 0, none, none⟩] := by
  decide

/-- C8 amended: every Chunk metadata row created by `store_document` records
the owning document id and ordinal index — from which the shard path
`data/parquet/{document_id}.parquet`, present in the final state, is
derivable — while the explicit shard-pointer columns `parquet_path` and
`row_number` are left unset. -/
theorem chunk_rows_record_document_not_shard_pointer
    (document_id : String) (chunkIds : Nat → String) (file_path : String)
    (chunks : List String) (embeddings : List (List ℚ)) (st : StoreState)
    (h1 : file_path ≠ "") (h2 : chunks ≠ []) (h3 : embeddings ≠ [])
    (h4 : chunks.length = embeddings.length) :
    (store_document document_id chunkIds false file_path chunks embeddings st).2.chunksTable
      = st.chunksTable ++ ((chunks.zip embeddings).enum).map
          (fun ie => ⟨chunkIds ie.1, document_id, ie.1, none, none⟩) ∧
    (store_document document_id chunkIds false file_path chunks embeddings st).2.shards
      = st.shards ++ [(PARQUET_DIR ++ "/" ++ document_id ++ ".parquet",
          ((chunks.zip embeddings).enum).map
            (fun ie => ⟨chunkIds ie.1, document_id, ie.1, ie.2.1, ie.2.2⟩))] ∧
    (∀ r ∈ ((chunks.zip embeddings).enum).map
        (fun ie => (⟨chunkIds ie.1, document_id, ie.1, none, none⟩ : ChunkRow)),
      r.document_id = document_id ∧ r.parquet_path = none ∧ r.row_number = none) := by
  have h2' : chunks.isEmpty = false := by
    cases chunks with
    | nil => exact absurd rfl h2
    | cons a t => rfl
  have h3' : embeddings.isEmpty = false := by
    cases embeddings with
    | nil => exact absurd rfl h3
    | cons a t => rfl
  refine ⟨?_, ?_, ?_⟩
  · simp [store_document, h1, h2', h3', h4]
  · simp [store_document, h1, h2', h3', h4]
  · intro r hr
    rcases List.mem_map.mp hr with ⟨ie, _, hie⟩
    rw [← hie]
    exact ⟨rfl, rfl, rfl⟩

theorem chunk_rows_record_document_not_shard_pointer_witness :
    (store_document "d1" (fun i => "ck" ++ toString i) false "docs/a.txt"
        ["hello"] [[1, 0]] ⟨[], [], []⟩).2.chunksTable
      = [⟨"ck0", "d1", 0, none, none⟩] ∧
    (store_document "d1" (fun i => "ck" ++ toString i) false "docs/a.txt"
        ["hello"] [[1, 0]] ⟨[], [], []⟩).2.shards
      = [("data/parquet/d1.parquet", [⟨"ck0", "d1", 0, "hello", [1, 0]⟩])] := by
  have h := chunk_rows_record_document_not_shard_pointer "d1"
    (fun i => "ck" ++ toString i) "docs/a.txt" ["hello"] [[1, 0]] ⟨[], [], []⟩
    (by decide) (by decide) (by decide) (by decide)
  exact ⟨h.1.trans (by decide), h.2.1.trans (by decide)⟩

/- ## Embedding Index cache (`src/backend/src/services/retrieval_service.py`,
`load_embeddings`) -/

/-- One row of the dataframe read from the parquet shards by
`load_embeddings` (`SELECT chunk_id, document_id, text, embedding`). -/
structure Row where
  chunk_id : String
  document_id : String
  text : String
  embedding : List ℚ
deriving DecidableEq

/-- The cached structure `{"df": df, "matrix": embedding_matrix}`. -/
structure Cache where
  df : List Row
  matrix : List (List ℚ)
deriving DecidableEq

/-- Builds the cache from the rows read out of the shards: the dataframe and
the stacked embedding matrix. -/
def buildCache (rows : List Row) : Cache := ⟨rows, rows.map (fun r => r.embedding)⟩

/-- Embedding of `load_embeddings`.  `shardRows` is the current content of
all parquet shard files; `cache` is the process-wide `EMBEDDING_CACHE`
before the call.  The result triple is (returned value, `EMBEDDING_CACHE`
after the call, whether the shard files were read): a populated cache is
returned untouched; otherwise the shards are read, and a non-empty read is
cached while an empty read leaves the cache unset and returns `None`. -/
def load_embeddings (shardRows : List Row) (cache : Option Cache) :
    Option Cache × Option Cache × Bool :=
  match cache with
  | some c => (some c, some c, false)
  | none =>
    if shardRows.isEmpty then (none, none, true)
    else (some (buildCache shardRows), some (buildCache shardRows), true)

/-- Concrete shard row standing for a document ingested after the first
query. -/
def lateRow : Row := ⟨"c9", "d9", "late text", [1, 0]⟩

/-- C6 counterexample: when the first `load_embeddings` call finds no shards
it caches nothing, so the second call reads the shard files again (read flag
`true`) and returns a structure containing the document ingested in between
— refuting "every subsequent call returns the same cached structure without
reading the shard files again" and the invisibility of later documents. -/
theorem load_embeddings_refreshes_after_empty_first_load :
    load_embeddings [] none = (none, none, true) ∧
    load_embeddings [lateRow] (load_embeddings [] none).2.1
      = (some (buildCache [lateRow]), some (buildCache [lateRow]), true) ∧
    lateRow ∈ (buildCache [lateRow]).df := by
  refine ⟨rfl, rfl, ?_⟩
  simp [buildCache]

/-- C6 amended: after the first `load_embeddings` call that finds at least
one shard row, every subsequent call — whatever the shard files contain by
then — returns the very structure cached by that first call without reading
the shard files, so documents ingested after that first successful load stay
invisible to retrieval until process restart. -/
theorem load_embeddings_cached_after_first_load
    (shardRows shardRowsLater : List Row) (h : shardRows ≠ []) :
    load_embeddings shardRows none
      = (some (buildCache shardRows), some (buildCache shardRows), true) ∧
    load_embeddings shardRowsLater (load_embeddings shardRows none).2.1
      = (some (buildCache shardRows), some (buildCache shardRows), false) := by
  have h' : shardRows.isEmpty = false := by
    cases shardRows with
    | nil => exact absurd rfl h
    | cons a t => rfl
  constructor
  · simp [load_embeddings, h']
  · simp [load_embeddings, h']

theorem load_embeddings_cached_after_first_load_witness :
    load_embeddings [lateRow] ((load_embeddings [⟨"c0", "d0", "old", [0, 1]⟩] none).2.1)
      = (some (buildCache [⟨"c0", "d0", "old", [0, 1]⟩]),
         some (buildCache [⟨"c0", "d0", "old", [0, 1]⟩]), false) :=
  (load_embeddings_cached_after_first_load [⟨"c0", "d0", "old", [0, 1]⟩] [lateRow]
    (by decide)).2

/- ## Retrieval candidates and reranking (`retrieval_service.py`) -/

/-- The confidence threshold constant of `retrieval_service.py`. -/
def CONFIDENCE_THRESHOLD : ℚ := -5

/-- The maximum retrieval pool size constant of `retrieval_service.py`. -/
def MAX_RETRIEVAL_POOL : Nat := 20

/-- One candidate dict of `handle_query`: a dataframe row together with its
`similarity_score` column and the `rerank_score` key attached by `rerank`
(absent before reranking). -/
structure RChunk where
  row : Row
  similarity_score : ℚ
  rerank_score : Option ℚ
deriving DecidableEq

/-- The score `chunk.get("rerank_score", chunk["similarity_score"])` used by
the threshold filter and in the response sources. -/
def usedScore (c : RChunk) : ℚ := c.rerank_score.getD c.similarity_score

/-- Descending order on `similarity_score`, the sort key of the retrieval
pool selection (`sort_values(by="similarity_score", ascending=False)`). -/
def simDesc (a b : RChunk) : Prop := b.similarity_score ≤ a.similarity_score

instance : DecidableRel simDesc :=
  fun a b => inferInstanceAs (Decidable (b.similarity_score ≤ a.similarity_score))

instance : IsTotal RChunk simDesc := ⟨fun a b => le_total b.similarity_score a.similarity_score⟩

instance : IsTrans RChunk simDesc := ⟨fun _ _ _ h1 h2 => le_trans h2 h1⟩

/-- The sort key `x["rerank_score"]` of `rerank` (all candidates carry the
key there; the default only quiets the `Option`). -/
def rerankKey (c : RChunk) : ℚ := c.rerank_score.getD 0

/-- Descending order on the attached rerank score, the sort order of
`rerank`. -/
def rerankDesc (a b : RChunk) : Prop := rerankKey b ≤ rerankKey a

instance : DecidableRel rerankDesc :=
  fun a b => inferInstanceAs (Decidable (rerankKey b ≤ rerankKey a))

instance : IsTotal RChunk rerankDesc := ⟨fun a b => le_total (rerankKey b) (rerankKey a)⟩

instance : IsTrans RChunk rerankDesc := ⟨fun _ _ _ h1 h2 => le_trans h2 h1⟩

/-- The `for chunk, score in zip(chunks, scores)` loop of `rerank`: attaches
the i-th predicted score to the i-th candidate; candidates beyond the score
list are left untouched, scores beyond the candidate list are dropped. -/
def attachScores : List RChunk → List ℚ → List RChunk
  | chunks, [] => chunks
  | [], _ => []
  | c :: cs, s :: ss => { c with rerank_score := some s } :: attachScores cs ss

theorem attachScores_length (chunks : List RChunk) (scores : List ℚ) :
    (attachScores chunks scores).length = chunks.length := by
  induction chunks generalizing scores with
  | nil => cases scores <;> rfl
  | cons c cs ih =>
    cases scores with
    | nil => rfl
    | cons s ss => simp [attachScores, ih]

theorem attachScores_map_row (chunks : List RChunk) (scores : List ℚ) :
    (attachScores chunks scores).map (fun c => c.row) = chunks.map (fun c => c.row) := by
  induction chunks generalizing scores with
  | nil => cases scores <;> rfl
  | cons c cs ih =>
    cases scores with
    | nil => rfl
    | cons s ss => simp [attachScores, ih]

theorem attachScores_all_some (chunks : List RChunk) (scores : List ℚ)
    (h : chunks.length ≤ scores.length) :
    ∀ c ∈ attachScores chunks scores, c.rerank_score.isSome := by
  induction chunks generalizing scores with
  | nil =>
    cases scores with
    | nil => intro c hc; exact absurd hc (List.not_mem_nil c)
    | cons s ss => intro c hc; exact absurd hc (List.not_mem_nil c)
  | cons c cs ih =>
    cases scores with
    | nil => simp at h
    | cons s ss =>
      intro d hd
      rcases List.mem_cons.mp hd with hd | hd
      · rw [hd]; rfl
      · exact ih ss (by simpa using Nat.le_of_succ_le_succ h) d hd

/-- Embedding of `rerank`: predicts a score for each (query, text) pair,
attaches the scores, and stably sorts descending by the attached score.  A
candidate left without the `rerank_score` key (the cross-encoder returning
too few scores) makes the sort key raise `KeyError`, modelled by the error
branch. -/
def rerank (predict : List (String × String) → List ℚ) (query : String)
    (chunks : List RChunk) : Except String (List RChunk) :=
  let pairs := chunks.map (fun c => (query, c.row.text))
  let scored := attachScores chunks (predict pairs)
  if scored.all (fun c => c.rerank_score.isSome) then
    .ok (scored.insertionSort rerankDesc)
  else .error "KeyError: rerank_score"

/-- C5: For every non-empty candidate list (with the cross-encoder returning
one score per pair, as it does), `rerank` returns the input candidates with
scores attached, as a permutation sorted in descending order of the attached
rerank score; in particular the underlying rows are a permutation of the
input rows. -/
theorem rerank_sorted_permutation
    (predict : List (String × String) → List ℚ) (query : String)
    (chunks : List RChunk) (hne : chunks ≠ [])
    (hlen : (predict (chunks.map (fun c => (query, c.row.text)))).length
              = chunks.length) :
    ∃ out, rerank predict query chunks = .ok out ∧
      out.Perm (attachScores chunks (predict (chunks.map (fun c => (query, c.row.text))))) ∧
      (out.map (fun c => c.row)).Perm (chunks.map (fun c => c.row)) ∧
      out.Sorted rerankDesc ∧
      out ≠ [] := by
  set scores := predict (chunks.map (fun c => (query, c.row.text))) with hscores
  have hall : (attachScores chunks scores).all (fun c => c.rerank_score.isSome) = true := by
    rw [List.all_eq_true]
    intro c hc
    exact attachScores_all_some chunks scores (le_of_eq hlen.symm) c hc
  refine ⟨(attachScores chunks scores).insertionSort rerankDesc, ?_, ?_, ?_, ?_, ?_⟩
  · simp only [rerank]
    rw [← hscores, hall]
    simp
  · exact List.perm_insertionSort rerankDesc (attachScores chunks scores)
  · have hperm :=
      (List.perm_insertionSort rerankDesc (attachScores chunks scores)).map (fun c => c.row)
    rw [attachScores_map_row] at hperm
    exact hperm
  · exact List.sorted_insertionSort rerankDesc (attachScores chunks scores)
  · intro hcon
    have hlen2 : (attachScores chunks scores).length = 0 := by
      rw [← (List.perm_insertionSort rerankDesc (attachScores chunks scores)).length_eq, hcon]
      rfl
    rw [attachScores_length] at hlen2
    exact hne (List.length_eq_zero.mp hlen2)

/-- Concrete candidates for the rerank witness. -/
def wChunkA : RChunk := ⟨⟨"c1", "d1", "alpha", [1, 0]⟩, 1, none⟩

def wChunkB : RChunk := ⟨⟨"c2", "d1", "beta", [0, 1]⟩, 0, none⟩

/-- Cross-encoder stub for the rerank witness: "beta" outscores "alpha". -/
def wPredict (pairs : List (String × String)) : List ℚ :=
  pairs.map (fun p => if p.2 = "beta" then 3 else -2)

theorem rerank_sorted_permutation_witness :
    ∃ out, rerank wPredict "q" [wChunkA, wChunkB] = .ok out ∧
      out.Perm (attachScores [wChunkA, wChunkB]
        (wPredict ([wChunkA, wChunkB].map (fun c => ("q", c.row.text))))) ∧
      (out.map (fun c => c.row)).Perm ([wChunkA, wChunkB].map (fun c => c.row)) ∧
      out.Sorted rerankDesc ∧
      out ≠ [] :=
  rerank_sorted_permutation wPredict "q" [wChunkA, wChunkB] (by decide) (by decide)

/- ## Confidence threshold with fallback (`handle_query`, step 6) -/

/-- The list-comprehension filter keeping candidates whose used score is
strictly above `CONFIDENCE_THRESHOLD`. -/
def thresholdFilter (reranked : List RChunk) : List RChunk :=
  reranked.filter (fun c => CONFIDENCE_THRESHOLD < usedScore c)

/-- The fallback: when the filter drops every candidate, the full reranked
list is used instead. -/
def applyFallback (reranked : List RChunk) : List RChunk :=
  let filtered := thresholdFilter reranked
  if filtered.isEmpty then reranked else filtered

/-- The `final_chunks = filtered_chunks[:top_k]` selection. -/
def finalChunks (reranked : List RChunk) (top_k : Nat) : List RChunk :=
  (applyFallback reranked).take top_k

/-- C3: Candidates with rerank score ≤ −5.0 are dropped before the top-k
selection whenever any candidate survives the threshold; when every
candidate scores ≤ −5.0 the returned list is the full reranked list
unfiltered, truncated to top_k, and is never empty for a non-empty pool and
top_k ≥ 1. -/
theorem confidence_threshold_fallback (reranked : List RChunk) (top_k : Nat) :
    ((∃ d ∈ reranked, CONFIDENCE_THRESHOLD < usedScore d) →
       finalChunks reranked top_k = (thresholdFilter reranked).take top_k ∧
       ∀ c ∈ finalChunks reranked top_k, CONFIDENCE_THRESHOLD < usedScore c) ∧
    ((∀ c ∈ reranked, usedScore c ≤ CONFIDENCE_THRESHOLD) →
       finalChunks reranked top_k = reranked.take top_k) ∧
    ((∀ c ∈ reranked, usedScore c ≤ CONFIDENCE_THRESHOLD) → reranked ≠ [] →
       1 ≤ top_k → finalChunks reranked top_k ≠ []) := by
  refine ⟨?_, ?_, ?_⟩
  · intro hex
    rcases hex with ⟨d, hd, hscore⟩
    have hfe : (thresholdFilter reranked).isEmpty = false := by
      rw [List.isEmpty_eq_false_iff_exists_mem]
      exact ⟨d, List.mem_filter.mpr ⟨hd, by simpa using hscore⟩⟩
    constructor
    · rw [finalChunks, applyFallback]
      simp only [hfe, Bool.false_eq_true, if_false]
    · intro c hc
      rw [finalChunks, applyFallback] at hc
      simp only [hfe, Bool.false_eq_true, if_false] at hc
      have := List.mem_filter.mp (List.mem_of_mem_take hc)
      simpa using this.2
  · intro hall
    have hfe : (thresholdFilter reranked).isEmpty = true := by
      rw [List.isEmpty_iff]
      rw [thresholdFilter, List.filter_eq_nil_iff]
      intro c hc
      simpa using not_lt.mpr (hall c hc)
    rw [finalChunks, applyFallback]
    simp only [hfe, if_true]
  · intro hall hne htk hcon
    have h1 : finalChunks reranked top_k = reranked.take top_k := by
      have hfe : (thresholdFilter reranked).isEmpty = true := by
        rw [List.isEmpty_iff]
        rw [thresholdFilter, List.filter_eq_nil_iff]
        intro c hc
        simpa using not_lt.mpr (hall c hc)
      rw [finalChunks, applyFallback]
      simp only [hfe, if_true]
    rw [h1] at hcon
    rcases List.take_eq_nil_iff.mp hcon with h | h
    · omega
    · exact hne h

/-- Candidate pool for the C3 witness: every rerank score is ≤ −5. -/
def wLowPool : List RChunk :=
  [⟨⟨"c1", "d1", "alpha", [1, 0]⟩, 1, some (-7)⟩,
   ⟨⟨"c2", "d1", "beta", [0, 1]⟩, 0, some (-6)⟩]

theorem confidence_threshold_fallback_witness :
    finalChunks wLowPool 1 = wLowPool.take 1 ∧ finalChunks wLowPool 1 ≠ [] :=
  ⟨(confidence_threshold_fallback wLowPool 1).2.1 (by decide),
   (confidence_threshold_fallback wLowPool 1).2.2 (by decide) (by decide) (by decide)⟩

/- ## Retrieval pool sizing (`handle_query`, step 4) -/

/-- The `retrieval_k = min(max(top_k * 5, 10), MAX_RETRIEVAL_POOL)` formula
of `handle_query`. -/
def retrievalK (top_k : Nat) : Nat := min (max (top_k * 5) 10) MAX_RETRIEVAL_POOL

/-- The retrieval pool: rows sorted by similarity descending, first
`retrieval_k` taken (`sort_values(...).head(retrieval_k)`). -/
def retrievalPool (dfS : List RChunk) (top_k : Nat) : List RChunk :=
  (dfS.insertionSort simDesc).take (retrievalK top_k)

/-- C4: For every query with top_k ≥ 1, the pool passed to the reranker has
size `min(max(top_k*5, 10), 20)` bounded by the number of available rows;
in particular the formula gives 10 for top_k = 1, 15 for top_k = 3, and 20
(capped) for top_k = 10. -/
theorem retrieval_pool_size (dfS : List RChunk) (top_k : Nat) (h : 1 ≤ top_k) :
    (retrievalPool dfS top_k).length = min (retrievalK top_k) dfS.length ∧
    retrievalK 1 = 10 ∧ retrievalK 3 = 15 ∧ retrievalK 10 = 20 := by
  refine ⟨?_, by decide, by decide, by decide⟩
  rw [retrievalPool, List.length_take,
    (List.perm_insertionSort simDesc dfS).length_eq]

/-- Fourteen distinct rows for the C4 witness pool. -/
def wManyRows : List RChunk :=
  (List.range 14).map (fun i => ⟨⟨"c" ++ toString i, "d1", "t", [1]⟩, (i : ℚ), none⟩)

theorem retrieval_pool_size_witness :
    (retrievalPool wManyRows 1).length = 10 ∧
    (retrievalPool wManyRows 3).length = 14 ∧
    retrievalK 10 = 20 := by
  have h1 := (retrieval_pool_size wManyRows 1 (by decide)).1
  have h3 := (retrieval_pool_size wManyRows 3 (by decide)).1
  have h10 := (retrieval_pool_size wManyRows 10 (by decide)).2.2.2
  refine ⟨?_, ?_, h10⟩
  · rw [h1]; decide
  · rw [h3]; decide

/- ## Main query handler (`handle_query`) -/

/-- One entry of the `sources` list of the query response. -/
structure SourceItem where
  document_id : String
  chunk_id : String
  score : ℚ
deriving DecidableEq

/-- The response dict of `handle_query` (the `metadata` block, derived data
only, is omitted). -/
structure QueryResponse where
  query : String
  answer : String
  sources : List SourceItem
deriving DecidableEq

/-- ASCII apostrophe, kept out of string literals. -/
def apostrophe : String := ⟨[Char.ofNat 39]⟩

/-- Unicode right single quotation mark. -/
def rightQuote : String := ⟨[Char.ofNat 8217]⟩

/-- The `unwanted_prefixes` denylist of `handle_query`. -/
def unwanted_prefixes : List String :=
  ["Sure!", "Here is", "Here" ++ rightQuote ++ "s", "Source 1:",
   "Sure! Here" ++ apostrophe ++ "s"]

/-- The defensive cleaning loop of `handle_query`: for each denylisted
leading phrase, when the answer starts with it, every occurrence is replaced
by the empty string and the result stripped. -/
def cleanAnswer (answer : String) : String :=
  unwanted_prefixes.foldl
    (fun a p => if pyStartsWith a p then pyStrip (pyReplaceEmpty a p) else a) answer

/-- The grounding prompt template of `handle_query`. -/
def buildPrompt (context query : String) : String :=
  "\nTEXT:\n" ++ context ++ "\n\nQUESTION:\n" ++ query ++
  "\n\nINSTRUCTION:\nGive only the answer from the TEXT above.\nIf not found, say:\n" ++
  "I could not find the information in the provided documents.\n\nANSWER:\n"

/-- Environment of `handle_query`: the query embedding call
(`generate_embeddings([query])[0]`), the parquet shard contents and the
process-wide `EMBEDDING_CACHE` as seen by `load_embeddings`, the cosine
similarity of `compute_similarity` (an abstract numeric function here), the
cross-encoder `reranker.predict`, and the LLM `generate_answer`. -/
structure QueryEnv where
  generate_embeddings_query : Except String (List ℚ)
  shardRows : List Row
  cacheState : Option Cache
  sim : List ℚ → List ℚ → ℚ
  predict : List (String × String) → List ℚ
  generate_answer : String → Except String String

/-- Steps 3–8 of `handle_query` on an already filtered dataframe: attach
similarity scores, select the retrieval pool, rerank, apply the confidence
threshold with fallback, truncate to top_k, and synthesize the answer. -/
def mainRetrieval (env : QueryEnv) (query : String) (top_k : Nat)
    (query_vector : List ℚ) (df : List Row) : Except String QueryResponse :=
  let dfS : List RChunk := df.map (fun r => ⟨r, env.sim query_vector r.embedding, none⟩)
  let pool := retrievalPool dfS top_k
  match rerank env.predict query pool with
  | .error e => .error ("Query processing failed: " ++ e)
  | .ok reranked =>
    let final := finalChunks reranked top_k
    if final.isEmpty then
      .ok ⟨query, "I could not find the information in the provided documents.", []⟩
    else
      let context := String.intercalate "\n\n" (final.map (fun c => c.row.text))
      match env.generate_answer (buildPrompt context query) with
      | .error e => .error ("Query processing failed: " ++ e)
      | .ok raw =>
        .ok ⟨query, cleanAnswer (pyStrip raw),
             final.map (fun c => ⟨c.row.document_id, c.row.chunk_id, usedScore c⟩)⟩

/-- Embedding of `handle_query`: embed the query, load (or reuse) the cached
embeddings, answer "No documents available." when the cache is absent, apply
the optional document filter answering "No documents found for the provided
document_id." when it matches nothing, and otherwise run the retrieval
pipeline.  Python truthiness makes both `None` and `""` skip the filter. -/
def handle_query (env : QueryEnv) (query : String) (top_k : Nat)
    (document_id : Option String) : Except String QueryResponse :=
  match env.generate_embeddings_query with
  | .error e => .error ("Query processing failed: " ++ e)
  | .ok query_vector =>
    match (load_embeddings env.shardRows env.cacheState).1 with
    | none => .ok ⟨query, "No documents available.", []⟩
    | some cache =>
      if (document_id.getD "") ≠ "" then
        let filtered := cache.df.filter (fun r => r.document_id = document_id.getD "")
        if filtered.isEmpty then
          .ok ⟨query, "No documents found for the provided document_id.", []⟩
        else mainRetrieval env query top_k query_vector filtered
      else mainRetrieval env query top_k query_vector cache.df

/-- The reranked list has the size of its input pool. -/
theorem rerank_ok_length (predict : List (String × String) → List ℚ)
    (query : String) (chunks out : List RChunk)
    (h : rerank predict query chunks = .ok out) : out.length = chunks.length := by
  simp only [rerank] at h
  split at h
  · have hout : (attachScores chunks
        (predict (chunks.map (fun c => (query, c.row.text))))).insertionSort rerankDesc
          = out := by
      exact Except.ok.inj h
    rw [← hout, (List.perm_insertionSort rerankDesc _).length_eq, attachScores_length]
  · exact Except.noConfusion h

/-- The threshold-with-fallback selection is non-empty whenever the reranked
list is and top_k ≥ 1. -/
theorem finalChunks_ne_nil (reranked : List RChunk) (top_k : Nat)
    (hne : reranked ≠ []) (htk : 1 ≤ top_k) : finalChunks reranked top_k ≠ [] := by
  intro hcon
  have hfb : applyFallback reranked ≠ [] := by
    simp only [applyFallback]
    by_cases hf : (thresholdFilter reranked).isEmpty = true
    · rw [if_pos hf]
      exact hne
    · rw [if_neg hf]
      intro hcon2
      exact hf (by rw [hcon2]; rfl)
  rcases List.take_eq_nil_iff.mp hcon with h | h
  · omega
  · exact hfb h

/-- A successful `mainRetrieval` on a non-empty dataframe with top_k ≥ 1
always carries at least one source. -/
theorem mainRetrieval_ok_sources (env : QueryEnv) (query : String) (top_k : Nat)
    (query_vector : List ℚ) (df : List Row) (resp : QueryResponse)
    (hdf : df ≠ []) (htk : 1 ≤ top_k)
    (h : mainRetrieval env query top_k query_vector df = .ok resp) :
    resp.sources ≠ [] := by
  simp only [mainRetrieval] at h
  have hdfS : df.map (fun r => (⟨r, env.sim query_vector r.embedding, none⟩ : RChunk)) ≠ [] := by
    intro hcon
    exact hdf (List.map_eq_nil_iff.mp hcon)
  have hpool : retrievalPool
      (df.map (fun r => (⟨r, env.sim query_vector r.embedding, none⟩ : RChunk))) top_k ≠ [] := by
    intro hcon
    have hlen := congrArg List.length hcon
    rw [retrievalPool, List.length_take,
      (List.perm_insertionSort simDesc _).length_eq] at hlen
    simp only [List.length_nil] at hlen
    rcases Nat.min_eq_zero_iff.mp hlen with h0 | h0
    · rw [retrievalK, MAX_RETRIEVAL_POOL] at h0
      omega
    · exact hdfS (List.length_eq_zero.mp h0)
  split at h
  · exact Except.noConfusion h
  case h_2 reranked hr =>
    have hrne : reranked ≠ [] := by
      intro hcon
      have := rerank_ok_length env.predict query _ reranked hr
      rw [hcon] at this
      exact hpool (List.length_eq_zero.mp this.symm)
    have hfinal := finalChunks_ne_nil reranked top_k hrne htk
    have hfe : (finalChunks reranked top_k).isEmpty = false := by
      cases hf : finalChunks reranked top_k with
      | nil => exact absurd hf hfinal
      | cons a t => rfl
    rw [hfe] at h
    simp only [Bool.false_eq_true, if_false] at h
    split at h
    · exact Except.noConfusion h
    · have hresp := Except.ok.inj h
      rw [← hresp]
      simp only []
      intro hcon
      exact hfinal (List.map_eq_nil_iff.mp hcon)

/-- A cache value produced by `load_embeddings` always has a non-empty
dataframe (the empty read leaves the cache unset), given the invariant that
the prior cache state was itself produced that way. -/
theorem load_embeddings_some_df_ne_nil (shardRows : List Row) (cs : Option Cache)
    (hinv : ∀ c0, cs = some c0 → c0.df ≠ []) (c : Cache)
    (h : (load_embeddings shardRows cs).1 = some c) : c.df ≠ [] := by
  cases cs with
  | some c0 =>
    have hc0 : c0 = c := by
      simpa [load_embeddings] using h
    rw [← hc0]
    exact hinv c0 rfl
  | none =>
    by_cases hs : shardRows.isEmpty = true
    · simp [load_embeddings, hs] at h
    · simp [load_embeddings, hs] at h
      intro hcon
      rw [← h] at hcon
      have hnil : shardRows = [] := hcon
      rw [hnil] at hs
      exact hs rfl

/-- C9: With top_k ≥ 1 and the cache invariant of `load_embeddings`,
`handle_query` returns a normal response with empty sources in exactly the
two empty situations: no cache could be built (answer
"No documents available.") and a truthy document filter matching no row
(answer "No documents found for the provided document_id."); any successful
response with empty sources carries one of those two answers, and both
situations return `.ok`, not an error. -/
theorem handle_query_empty_outcomes
    (env : QueryEnv) (query : String) (top_k : Nat) (document_id : Option String)
    (htk : 1 ≤ top_k)
    (hcache : ∀ c, env.cacheState = some c → c.df ≠ []) :
    (env.cacheState = none → env.shardRows = [] →
       (∃ v, env.generate_embeddings_query = .ok v) →
       handle_query env query top_k document_id
         = .ok ⟨query, "No documents available.", []⟩) ∧
    (∀ c, (load_embeddings env.shardRows env.cacheState).1 = some c →
       (∃ v, env.generate_embeddings_query = .ok v) →
       (document_id.getD "") ≠ "" →
       c.df.filter (fun r => r.document_id = document_id.getD "") = [] →
       handle_query env query top_k document_id
         = .ok ⟨query, "No documents found for the provided document_id.", []⟩) ∧
    (∀ resp, handle_query env query top_k document_id = .ok resp →
       resp.sources = [] →
       resp.answer = "No documents available." ∨
       resp.answer = "No documents found for the provided document_id.") := by
  refine ⟨?_, ?_, ?_⟩
  · rintro hcs hsh ⟨v, hv⟩
    simp [handle_query, hv, hcs, hsh, load_embeddings]
  · rintro c hc ⟨v, hv⟩ hdoc hfil
    have hfe : (c.df.filter (fun r => r.document_id = document_id.getD "")).isEmpty = true := by
      rw [hfil]
      rfl
    simp [handle_query, hv, hc, hdoc, hfe]
  · intro resp h hsrc
    rw [handle_query] at h
    split at h
    · exact Except.noConfusion h
    case h_2 v hv =>
      split at h
      · have hresp := Except.ok.inj h
        rw [← hresp]
        exact Or.inl rfl
      case h_2 cache hc =>
        have hdf : cache.df ≠ [] := load_embeddings_some_df_ne_nil _ _ hcache cache hc
        split at h
        case isTrue hdoc =>
          simp only [] at h
          split at h
          case isTrue hfil =>
            have hresp := Except.ok.inj h
            rw [← hresp]
            exact Or.inr rfl
          case isFalse hfil =>
            have hfne : cache.df.filter
                (fun r => r.document_id = document_id.getD "") ≠ [] := by
              intro hcon
              exact hfil (by rw [hcon]; rfl)
            exact absurd hsrc
              (mainRetrieval_ok_sources env query top_k v _ resp hfne htk h)
        case isFalse hdoc =>
          exact absurd hsrc
            (mainRetrieval_ok_sources env query top_k v cache.df resp hdf htk h)

/-- Query environment for the first C9 witness: nothing ingested. -/
def wQueryEnvEmpty : QueryEnv :=
  { generate_embeddings_query := .ok [1, 0]
    shardRows := []
    cacheState := none
    sim := fun _ _ => 0
    predict := fun pairs => pairs.map (fun _ => 0)
    generate_answer := fun _ => .ok "answer" }

/-- Query environment for the second C9 witness: one shard row, so the
cache loads, but the document filter will match nothing. -/
def wQueryEnvFiltered : QueryEnv :=
  { wQueryEnvEmpty with shardRows := [lateRow] }

theorem handle_query_empty_outcomes_witness :
    handle_query wQueryEnvEmpty "q" 1 none
      = .ok ⟨"q", "No documents available.", []⟩ ∧
    handle_query wQueryEnvFiltered "q" 1 (some "nope")
      = .ok ⟨"q", "No documents found for the provided document_id.", []⟩ := by
  constructor
  · exact (handle_query_empty_outcomes wQueryEnvEmpty "q" 1 none (by decide)
      (by intro c hc; simp [wQueryEnvEmpty] at hc)).1 rfl rfl ⟨[1, 0], rfl⟩
  · exact (handle_query_empty_outcomes wQueryEnvFiltered "q" 1 (some "nope") (by decide)
      (by intro c hc; simp [wQueryEnvFiltered, wQueryEnvEmpty] at hc)).2.1
      (buildCache [lateRow]) rfl ⟨[1, 0], rfl⟩ (by decide) (by decide)
